import Mathlib

/-!
Shallow embedding of the batch auto-labeling pipeline
(`app/core/yoloe.py` and `app/helper/validators.py`).

Modelling conventions:
* Python numbers that reach `validate_confidence` are modelled by `PyVal`
  (ints, bools, floats, and non-numeric values); float values are modelled
  as rationals, on which the comparisons `0.0 <= conf <= 1.0` are exact.
* Exceptions are modelled by `Except PyErr`; the concrete exception classes
  of `app/helper/exceptions.py` that matter to the pipeline are the
  constructors of `PyErr`.
* The detector (`ultralytics.YOLOE`) is opaque: its per-image behaviour is an
  oracle `Oracle.infer`, and filesystem success/failure (mkdir, per-file
  write) are oracle booleans.  File contents actually produced by the code
  are modelled explicitly in `FS`.
* Python dicts keyed by strings/ints are association lists in insertion
  order; assignment `d[k] = v` is `dictSet` (replace-in-place or append),
  `d.get k default` / `d[k]` are `List.lookup`, matching dict semantics
  because `dictSet` keeps keys unique when building from `[]`.
* `sorted(class_counter.keys())` is `List.insertionSort (· ≤ ·)`; the keys
  are distinct, so any correct ascending sort coincides with Python's.
-/

/-- Python values as far as `Validator.validate_confidence` distinguishes
them: `bool` is a separate constructor because `isinstance(True, int)` holds
in Python and `float(True) = 1.0`. Floats are modelled as rationals. -/
inductive PyVal where
  | int (n : ℤ)
  | bool (b : Bool)
  | float (q : ℚ)
  | str (s : String)
  | pynone
  | list (l : List String)
deriving DecidableEq, Repr

/-- The exception classes of `app/helper/exceptions.py` reachable from the
pipeline, with their message. -/
inductive PyErr where
  | modelInitialization (msg : String)
  | modelPrediction (msg : String)
  | fileOperation (msg : String)
  | invalidParameter (msg : String)
  | imageNotFound (msg : String)
  | imageFormat (msg : String)
deriving DecidableEq, Repr

/-- The numeric value of a Python object, if `isinstance(conf, (int, float))`
holds: ints and bools (a subclass of int) and floats. -/
def pyNumVal : PyVal → Option ℚ
  | PyVal.int n => some (n : ℚ)
  | PyVal.bool b => some (if b then 1 else 0)
  | PyVal.float q => some q
  | _ => none

/-- `Validator.validate_confidence` (validators.py lines 19-38): reject
non-numeric types, reject values outside `[0, 1]`, return `float(conf)`. -/
def validate_confidence (conf : PyVal) : Except PyErr ℚ :=
  match pyNumVal conf with
  | none => Except.error (PyErr.invalidParameter "conf type")
  | some q =>
    if 0 ≤ q ∧ q ≤ 1 then Except.ok q
    else Except.error (PyErr.invalidParameter "conf range")

/-- The `names` attribute of the loaded model (`self.model.model.names`),
which may be a dict keyed by class id, a list/tuple, or something else. -/
inductive Names where
  | dict (m : List (ℕ × String))
  | list (l : List String)
  | other
deriving DecidableEq, Repr

/-- Mutable state of a `Yoloe` instance (yoloe.py lines 25-29).
`model = none` models `self.model is None`; `model = some nm` models a
loaded model whose `.model.names` attribute is `nm` when present. -/
structure YoloeState where
  model : Option (Option Names)
  model_name : Option String
  class_names : Option (List String)
  is_initialized : Bool
deriving DecidableEq, Repr

/-- The synthesized fallback name `f"class_{cls_id}"`. -/
def classFallback (cls_id : ℕ) : String :=
  "class_" ++ toString cls_id

/-- The model-level name-resolution chain shared by
`_generate_class_mapping` (yoloe.py lines 228-237) and
`_write_annotation_file` (lines 268-277): model names dict → model names
list (positional, in-bounds) → `class_{id}` fallback → configured
`self.class_names` (positional, in-bounds) → `class_{id}` fallback.
Returns `none` when Python would raise (`self.class_names` is `None` and
no model name table exists: `len(None)` raises `TypeError`). -/
def resolveMapName (st : YoloeState) (cls_id : ℕ) : Option String :=
  match st.model with
  | some (some (Names.dict m)) => some ((m.lookup cls_id).getD (classFallback cls_id))
  | some (some (Names.list l)) => some (l.getD cls_id (classFallback cls_id))
  | some (some Names.other) => some (classFallback cls_id)
  | _ =>
    match st.class_names with
    | some l => some (l.getD cls_id (classFallback cls_id))
    | none => none

/-- The per-result name-resolution chain of `_write_annotation_file`
(yoloe.py lines 266-277): a result-scoped name table takes priority when it
contains the id, then the model-level chain. -/
def resolveWriteName (st : YoloeState) (resNames : Option (List (ℕ × String)))
    (cls_id : ℕ) : Option String :=
  match resNames with
  | some table =>
    match table.lookup cls_id with
    | some n => some n
    | none => resolveMapName st cls_id
  | none => resolveMapName st cls_id

/-- Python dict assignment `d[k] = v`: replace the value of an existing key
in place, otherwise append (insertion order preserved). -/
def dictSet : List (String × ℕ) → String → ℕ → List (String × ℕ)
  | [], k, v => [(k, v)]
  | (k', v') :: rest, k, v =>
    if k' = k then (k, v) :: rest else (k', v') :: dictSet rest k v

/-- `class_counter[cls_id] += 1` on a `defaultdict(int)`, modelled as an
insertion-ordered association list of (class id, count). -/
def bumpCounter : List (ℕ × ℕ) → ℕ → List (ℕ × ℕ)
  | [], c => [(c, 1)]
  | (k, v) :: rest, c =>
    if k = c then (k, v + 1) :: rest else (k, v) :: bumpCounter rest c

/-- Sum of the counter's values (`sum(class_counter.values())`). -/
def counterTotal (counter : List (ℕ × ℕ)) : ℕ :=
  (counter.map Prod.snd).sum

/-- The `for idx, cls_id in enumerate(sorted(class_counter.keys()))` loop of
`_generate_class_mapping` (yoloe.py lines 226-240): resolve each class id to
a name, append one `classes.txt` line per id, and assign
`class_to_idx[class_name] = idx`.  `none` models an exception escaping the
loop (caught at line 251 and re-raised as `FileOperationError`). -/
def mappingLoop (st : YoloeState) :
    List ℕ → ℕ → List String → List (String × ℕ) →
    Option (List String × List (String × ℕ))
  | [], _, lines, dict => some (lines, dict)
  | c :: rest, idx, lines, dict =>
    match resolveMapName st c with
    | none => none
    | some name => mappingLoop st rest (idx + 1) (lines ++ [name]) (dictSet dict name idx)

/-- The zero-detection branch of `_generate_class_mapping` (yoloe.py lines
241-246): `for idx, class_name in enumerate(self.class_names or [])`, one
`classes.txt` line per configured name plus `class_to_idx[class_name] = idx`. -/
def emptyMapping (cfg : List String) : List String × List (String × ℕ) :=
  (cfg, cfg.enum.foldl (fun d p => dictSet d p.2 p.1) [])

/-- `Yoloe._generate_class_mapping` (yoloe.py lines 217-252): returns the
lines written to `classes.txt` and the resulting `class_to_idx` dict, or
`none` when the body raises (wrapped into `FileOperationError`). -/
def generateClassMapping (st : YoloeState) (counter : List (ℕ × ℕ)) :
    Option (List String × List (String × ℕ)) :=
  if counter = [] then
    some (emptyMapping (st.class_names.getD []))
  else
    mappingLoop st (List.insertionSort (· ≤ ·) (counter.map Prod.fst)) 0 [] []

/-- One detector box: `box.cls` (class id tensor, `None` when absent) and
`box.xywhn` (normalized center-x/center-y/width/height, `None` when absent).
Coordinates are rationals, modelling the exact values of the floats. -/
structure Box where
  cls : Option ℕ
  xywhn : Option (ℚ × ℚ × ℚ × ℚ)
deriving DecidableEq, Repr

/-- Outcome of `self.model.predict(image_path, conf=...)` for one image:
the call raises, returns a falsy/empty result list, or returns a first
result object carrying optional `boxes` and an optional result-scoped
`names` table. -/
inductive InferOutcome where
  | err
  | noResults
  | res (boxes : Option (List Box)) (names : Option (List (ℕ × String)))
deriving DecidableEq, Repr

/-- Environment oracles for one `predict_image` call: per-path validation
outcome (`Validator.validate_image_file` succeeds), per-image inference
outcome, whether `output_path.mkdir` succeeds, and whether writing a given
image's annotation file succeeds at the I/O level. -/
structure Oracle where
  validPath : String → Bool
  infer : String → InferOutcome
  mkdirOk : Bool
  writeOk : String → Bool

/-- Accumulator of the per-image inference loop (yoloe.py lines 130-167):
the batch-wide class counter, the retained `(image_path, result_names,
detections)` triples, and the success/failure tallies. -/
structure BatchAcc where
  counter : List (ℕ × ℕ)
  allResults : List (String × Option (List (ℕ × String)) × List Box)
  successful : ℕ
  failed : ℕ
deriving Repr

/-- One iteration of the inference loop (yoloe.py lines 136-167): a raised
exception or an empty result list counts as a failed prediction; a result
with no `boxes` is retained with an empty detection list; otherwise the
boxes with a class id are retained and counted, boxes without one are
dropped. -/
def processOne (o : Oracle) (acc : BatchAcc) (p : String) : BatchAcc :=
  match o.infer p with
  | InferOutcome.err => { acc with failed := acc.failed + 1 }
  | InferOutcome.noResults => { acc with failed := acc.failed + 1 }
  | InferOutcome.res boxes resNames =>
    match boxes with
    | none =>
      { acc with allResults := acc.allResults ++ [(p, resNames, [])],
                 successful := acc.successful + 1 }
    | some bs =>
      let dets := bs.filter (fun b => b.cls.isSome)
      { acc with
          counter := dets.foldl (fun c b => bumpCounter c (b.cls.getD 0)) acc.counter,
          allResults := acc.allResults ++ [(p, resNames, dets)],
          successful := acc.successful + 1 }

/-- The whole inference loop over the validated image paths. -/
def processImages (o : Oracle) (paths : List String) : BatchAcc :=
  paths.foldl (processOne o) { counter := [], allResults := [], successful := 0, failed := 0 }

/-- The decimal digit character of `n % 10`. -/
def digitChar (n : ℕ) : Char :=
  Char.ofNat (48 + n % 10)

/-- Zero-padded six-digit rendering of `k % 10^6`, the fractional part
produced by Python's `%.6f` formatting. -/
def pad6 (k : ℕ) : String :=
  String.mk [digitChar (k / 100000), digitChar (k / 10000), digitChar (k / 1000),
    digitChar (k / 100), digitChar (k / 10), digitChar k]

/-- `⌊q * 10^6 + 1/2⌋`, computed directly on the numerator and denominator
(see `round6_eq_floor`): the integer whose digits Python's `%.6f` formatting
of the exact value `q` prints.  (Exact decimal ties round up here rather
than to even; no IEEE double is an exact tie at six decimal places, so the
two rules agree on every value a float can take.) -/
def round6 (q : ℚ) : ℤ :=
  (2 * q.num * 1000000 + (q.den : ℤ)) / ((2 * q.den : ℕ) : ℤ)

/-- Python `f"{x:.6f}"` on the exact value `q`: round `q` to six decimal
places and render sign, integer part, `'.'`, and six fraction digits. -/
def fmt6 (q : ℚ) : String :=
  (if q.num < 0 then "-" else "") ++ toString ((round6 q).natAbs / 1000000) ++ "." ++
    pad6 (round6 q).natAbs

/-- One annotation line (yoloe.py line 287):
`f"{new_cls_id} {x_center:.6f} {y_center:.6f} {width:.6f} {height:.6f}"`,
where `new_cls_id = class_to_idx.get(original_class_name, 0)`. -/
def annLine (idx : ℕ) (c : ℚ × ℚ × ℚ × ℚ) : String :=
  toString idx ++ " " ++ fmt6 c.1 ++ " " ++ fmt6 c.2.1 ++ " " ++ fmt6 c.2.2.1 ++
    " " ++ fmt6 c.2.2.2

/-- The detection loop of `_write_annotation_file` (yoloe.py lines 258-287):
boxes lacking `cls` or `xywhn` are skipped; otherwise the class id is
resolved to a name, looked up in `class_to_idx` with default 0, and one
formatted line is emitted.  `none` models a raised exception (name
resolution failing), wrapped by the caller into `FileOperationError`. -/
def annotationLines (st : YoloeState) (resNames : Option (List (ℕ × String)))
    (dict : List (String × ℕ)) : List Box → Option (List String)
  | [] => some []
  | b :: rest =>
    match b.cls, b.xywhn with
    | some c, some coords =>
      match resolveWriteName st resNames c with
      | none => none
      | some name =>
        (annotationLines st resNames dict rest).map
          (fun ls => annLine ((dict.lookup name).getD 0) coords :: ls)
    | _, _ => annotationLines st resNames dict rest

/-- The annotation-writing loop of `predict_image` (yoloe.py lines
176-188): each retained image gets its annotation file written; a raised
exception (resolution failure inside `_write_annotation_file`, or an I/O
failure modelled by `Oracle.writeOk`) is caught, logged and skipped.
Returns the written `(image_path, lines)` events in order and the final
`annotation_files_created` count. -/
def writeAll (st : YoloeState) (o : Oracle) (dict : List (String × ℕ)) :
    List (String × Option (List (ℕ × String)) × List Box) →
    List (String × List String) × ℕ
  | [] => ([], 0)
  | (p, resNames, dets) :: rest =>
    let (files, created) := writeAll st o dict rest
    match annotationLines st resNames dict dets with
    | none => (files, created)
    | some lines =>
      if o.writeOk p then ((p, lines) :: files, created + 1) else (files, created)

/-- The statistics dict returned by `predict_image` (yoloe.py lines
191-199). -/
structure Stats where
  total_images : ℕ
  successful_predictions : ℕ
  failed_predictions : ℕ
  annotation_files_created : ℕ
  classes_detected : ℕ
  total_detections : ℕ
  class_distribution : List (ℕ × ℕ)
deriving DecidableEq, Repr

/-- Observable file-system effects of one `predict_image` call on the
output directory: whether the directory was created, the lines of
`classes.txt` if written, and the per-image annotation write events
(keyed by the source image path; the real file name is the image's stem
plus `.txt`). -/
structure FS where
  dirCreated : Bool
  classesTxt : Option (List String)
  annFiles : List (String × List String)
deriving DecidableEq, Repr

/-- The initial, untouched output directory. -/
def FS.empty : FS :=
  { dirCreated := false, classesTxt := none, annFiles := [] }

/-- `Yoloe.predict_image` (yoloe.py lines 82-215).  Order of operations is
the source's: readiness check, confidence validation (whose
`InvalidParameterError` is wrapped into `ModelPredictionError` by the
`except Exception` arm at lines 212-215), `mkdir` on the output directory,
the empty-input check, per-path validation, the inference loop, class
mapping generation (writing `classes.txt`), the annotation-writing loop,
and the statistics. -/
def predict_image (st : YoloeState) (o : Oracle) (images_path : List String)
    (conf : PyVal) (fs : FS) : Except PyErr Stats × FS :=
  if ¬ (st.is_initialized ∧ st.model.isSome) then
    (Except.error (PyErr.modelPrediction "model not initialized"), fs)
  else
    match validate_confidence conf with
    | Except.error _ =>
      (Except.error (PyErr.modelPrediction "unknown error during prediction"), fs)
    | Except.ok _ =>
      if ¬ o.mkdirOk then
        (Except.error (PyErr.fileOperation "failed to create output directory"), fs)
      else
        let fs1 : FS := { fs with dirCreated := true }
        if images_path = [] then
          (Except.error (PyErr.modelPrediction "image path list must not be empty"), fs1)
        else
          let validated := images_path.filter o.validPath
          if validated = [] then
            (Except.error (PyErr.modelPrediction "no valid image files found"), fs1)
          else
            let acc := processImages o validated
            match generateClassMapping st acc.counter with
            | none => (Except.error (PyErr.fileOperation "failed to generate class mapping"), fs1)
            | some (clsLines, dict) =>
              let fs2 : FS := { fs1 with classesTxt := some clsLines }
              let (files, created) := writeAll st o dict acc.allResults
              (Except.ok
                { total_images := validated.length,
                  successful_predictions := acc.successful,
                  failed_predictions := acc.failed,
                  annotation_files_created := created,
                  classes_detected := acc.counter.length,
                  total_detections := counterTotal acc.counter,
                  class_distribution := acc.counter },
               { fs2 with annFiles := files })

/-- `Validator.validate_prompts` (validators.py lines 157-190) on a list:
strip every item, drop falsy (empty) ones, reject an empty result, reject
prompts containing path-hostile characters. -/
def validate_prompts (prompts : List String) : Except PyErr (List String) :=
  let cleaned := (prompts.map String.trim).filter (fun s => s ≠ "")
  if cleaned = [] then
    Except.error (PyErr.invalidParameter "at least one prompt required")
  else if cleaned.any (fun p =>
      p.any (fun ch => ch ∈ ['/', '\\', ':', '*', '?', '\"', '<', '>', '|'])) then
    Except.error (PyErr.invalidParameter "prompt contains illegal character")
  else
    Except.ok cleaned

/-- `Validator.validate_model_name` (validators.py lines 192-217): reject a
blank name, then reject names outside `valid_models`. -/
def validate_model_name (model_name : String) (valid_models : List String) :
    Except PyErr String :=
  if model_name.trim = "" then
    Except.error (PyErr.invalidParameter "model name must not be blank")
  else if model_name ∉ valid_models then
    Except.error (PyErr.invalidParameter "invalid model name")
  else
    Except.ok model_name

/-- Environment oracles for one `init_model` call: whether the model file
exists on disk, the outcome of the `YOLOE(...)` constructor (`none` =
raises; otherwise the loaded model's optional `names` attribute), and
whether `get_text_pe` plus `set_classes` succeed. -/
structure InitOracle where
  fileExists : Bool
  loadResult : Option (Option Names)
  bindOk : Bool

/-- `Yoloe.init_model` (yoloe.py lines 31-75).  Every exception raised in
the `try` block lands in the `except` arm (lines 71-75), which sets
`self.is_initialized = False` on whatever state the body had reached and
raises `ModelInitializationError`.  Note `self.model` is already replaced
(line 57) before `set_classes` can fail. -/
def init_model (st : YoloeState) (env : InitOracle) (model_name : String)
    (names : List String) (valid_models : List String) :
    YoloeState × Except PyErr Bool :=
  match validate_prompts names with
  | Except.error _ =>
    ({ st with is_initialized := false },
     Except.error (PyErr.modelInitialization "invalid prompts"))
  | Except.ok vnames =>
    match validate_model_name model_name valid_models with
    | Except.error _ =>
      ({ st with is_initialized := false },
       Except.error (PyErr.modelInitialization "invalid model name"))
    | Except.ok vmodel =>
      if ¬ env.fileExists then
        ({ st with is_initialized := false },
         Except.error (PyErr.modelInitialization "model file does not exist"))
      else
        match env.loadResult with
        | none =>
          ({ st with is_initialized := false },
           Except.error (PyErr.modelInitialization "model load failed"))
        | some nm =>
          if ¬ env.bindOk then
            ({ st with model := some nm, is_initialized := false },
             Except.error (PyErr.modelInitialization "vocabulary binding failed"))
          else
            ({ model := some nm, model_name := some vmodel,
               class_names := some vnames, is_initialized := true },
             Except.ok true)

/-- Whether inference on `p` is counted as a failed prediction: the call
raised, or returned a falsy/empty result list (yoloe.py lines 138-144 and
164-167). -/
def inferFails (o : Oracle) (p : String) : Bool :=
  match o.infer p with
  | InferOutcome.err => true
  | InferOutcome.noResults => true
  | InferOutcome.res _ _ => false

/-- The class ids of the accepted detections of one image: the boxes of the
first result that carry a class id (yoloe.py lines 154-159). -/
def acceptedIdsOf (o : Oracle) (p : String) : List ℕ :=
  match o.infer p with
  | InferOutcome.res (some bs) _ =>
    (bs.filter (fun b => b.cls.isSome)).map (fun b => b.cls.getD 0)
  | _ => []

/-- All accepted class ids across the batch, in processing order. -/
def acceptedClassIds (o : Oracle) (paths : List String) : List ℕ :=
  (paths.map (acceptedIdsOf o)).flatten

/-- The `(image_path, result_names, detections)` triple retained for a
successfully predicted image (yoloe.py lines 146-161). -/
def resultTriple (o : Oracle) (p : String) :
    String × Option (List (ℕ × String)) × List Box :=
  match o.infer p with
  | InferOutcome.res (some bs) ns => (p, ns, bs.filter (fun b => b.cls.isSome))
  | InferOutcome.res none ns => (p, ns, [])
  | _ => (p, none, [])

/-- The dict built by the mapping loop, separated from line production:
assign index `i` to the first name, `i+1` to the next, and so on, with
Python dict-assignment semantics. -/
def loopDict : List (String × ℕ) → ℕ → List String → List (String × ℕ)
  | d, _, [] => d
  | d, i, n :: ns => loopDict (dictSet d n i) (i + 1) ns

/-- `names` paired with consecutive indices starting at `i`. -/
def zipIdxFrom : List String → ℕ → List (String × ℕ)
  | [], _ => []
  | n :: ns, i => (n, i) :: zipIdxFrom ns (i + 1)

/-- Folding the counter over a list of accepted class ids. -/
def foldBump (c : List (ℕ × ℕ)) (ids : List ℕ) : List (ℕ × ℕ) :=
  ids.foldl bumpCounter c

/-- A box retained by `_write_annotation_file`: it has both a class id and
box coordinates (yoloe.py lines 259-260). -/
def wfBox (b : Box) : Bool :=
  b.cls.isSome && b.xywhn.isSome

/-- The annotation line `_write_annotation_file` produces for a retained
box, given total name resolution. -/
def lineOf (st : YoloeState) (resNames : Option (List (ℕ × String)))
    (dict : List (String × ℕ)) (b : Box) : String :=
  annLine ((dict.lookup ((resolveWriteName st resNames (b.cls.getD 0)).getD "")).getD 0)
    (b.xywhn.getD (0, 0, 0, 0))

/-- The per-image write events the annotation-writing loop performs:
one `(path, lines)` per retained image whose lines computation does not
raise and whose file write succeeds. -/
def writtenFiles (st : YoloeState) (o : Oracle) (dict : List (String × ℕ))
    (rs : List (String × Option (List (ℕ × String)) × List Box)) :
    List (String × List String) :=
  rs.filterMap (fun r =>
    match annotationLines st r.2.1 dict r.2.2 with
    | none => none
    | some lines => if o.writeOk r.1 then some (r.1, lines) else none)

/-- Concrete initialized state for evaluation: model names dict
`0 ↦ "person", 1 ↦ "car"`, matching configured class names. -/
def sampleState : YoloeState :=
  { model := some (some (Names.dict [(0, "person"), (1, "car")])),
    model_name := some "yoloe-11l-seg.pt",
    class_names := some ["person", "car"],
    is_initialized := true }

/-- A state whose two class ids resolve to the same name — reachable by
configuring duplicate prompt names (e.g. `["a", "a"]`, which
`validate_prompts` accepts). -/
def collisionState : YoloeState :=
  { model := some (some (Names.dict [(0, "a"), (1, "a")])),
    model_name := some "yoloe-11l-seg.pt",
    class_names := some ["a", "a"],
    is_initialized := true }

/-- Concrete oracle: `a.jpg` has one "car" detection, `b.jpg` a "person"
and a "car" detection, `notes.txt` fails path validation, any other path
fails inference; every write succeeds. -/
def sampleOracle : Oracle :=
  { validPath := fun p => p != "notes.txt",
    infer := fun p =>
      if p = "a.jpg" then
        InferOutcome.res
          (some [{ cls := some 1,
                   xywhn := some (mkRat 1 2, mkRat 1 2, mkRat 1 4, mkRat 1 4) }])
          (some [(0, "person"), (1, "car")])
      else if p = "b.jpg" then
        InferOutcome.res
          (some [{ cls := some 0,
                   xywhn := some (mkRat 1 10, mkRat 1 5, mkRat 3 10, mkRat 2 5) },
                 { cls := some 1,
                   xywhn := some (mkRat 1 2, mkRat 1 2, mkRat 1 2, mkRat 1 2) }])
          (some [(0, "person"), (1, "car")])
      else InferOutcome.err,
    mkdirOk := true,
    writeOk := fun _ => true }

/-- Like `sampleOracle`, but the write of `b.jpg`'s annotation file fails. -/
def writeFailOracle : Oracle :=
  { sampleOracle with writeOk := fun p => p != "b.jpg" }

/-- Oracle whose every inference returns a result object without boxes:
a batch with zero detections. -/
def emptyOracle : Oracle :=
  { validPath := fun _ => true,
    infer := fun _ => InferOutcome.res none none,
    mkdirOk := true,
    writeOk := fun _ => true }

/-- An `init_model` environment whose model file is missing. -/
def missingFileEnv : InitOracle :=
  { fileExists := false, loadResult := none, bindOk := false }

/-! ### Dictionary lemmas -/

theorem lookup_dictSet_self (d : List (String × ℕ)) (k : String) (v : ℕ) :
    (dictSet d k v).lookup k = some v := by
  induction d with
  | nil => simp [dictSet, List.lookup_cons]
  | cons hd tl ih =>
    obtain ⟨k', v'⟩ := hd
    by_cases h : k' = k
    · subst h
      simp [dictSet, List.lookup_cons]
    · simp [dictSet, h, List.lookup_cons, beq_false_of_ne (Ne.symm h), ih]

theorem lookup_dictSet_ne (d : List (String × ℕ)) (k k' : String) (v : ℕ)
    (h : k ≠ k') : (dictSet d k' v).lookup k = d.lookup k := by
  induction d with
  | nil => simp [dictSet, List.lookup_cons, beq_false_of_ne h]
  | cons hd tl ih =>
    obtain ⟨k'', v''⟩ := hd
    by_cases h2 : k'' = k'
    · subst h2
      simp [dictSet, List.lookup_cons, beq_false_of_ne h]
    · simp [dictSet, h2, List.lookup_cons, ih]

theorem dictSet_eq_append (d : List (String × ℕ)) (k : String) (v : ℕ)
    (h : k ∉ d.map Prod.fst) : dictSet d k v = d ++ [(k, v)] := by
  induction d with
  | nil => simp [dictSet]
  | cons hd tl ih =>
    obtain ⟨k', v'⟩ := hd
    simp only [List.map_cons, List.mem_cons] at h
    push_neg at h
    simp [dictSet, Ne.symm h.1, ih h.2]

theorem loopDict_lookup_notMem (ns : List String) :
    ∀ (d : List (String × ℕ)) (i : ℕ) (k : String), k ∉ ns →
      (loopDict d i ns).lookup k = d.lookup k := by
  induction ns with
  | nil => intro d i k _; rfl
  | cons n ns ih =>
    intro d i k hk
    simp only [List.mem_cons] at hk
    push_neg at hk
    rw [loopDict, ih _ _ _ hk.2, lookup_dictSet_ne _ _ _ _ hk.1]

theorem loopDict_lookup_mem (ns : List String) :
    ∀ (d : List (String × ℕ)) (i : ℕ) (k : String), k ∈ ns →
      ∃ j, ∃ h : j < ns.length,
        (loopDict d i ns).lookup k = some (i + j) ∧ ns.get ⟨j, h⟩ = k := by
  induction ns with
  | nil => intro d i k hk; cases hk
  | cons n ns ih =>
    intro d i k hk
    by_cases hmem : k ∈ ns
    · obtain ⟨j, hj, hlook, hget⟩ := ih (dictSet d n i) (i + 1) k hmem
      refine ⟨j + 1, by simpa using Nat.succ_lt_succ hj, ?_, by simpa using hget⟩
      rw [loopDict, hlook]
      congr 1
      omega
    · have hn : k = n := by
        rcases List.mem_cons.mp hk with h | h
        · exact h
        · exact absurd h hmem
      subst hn
      refine ⟨0, by simp, ?_, rfl⟩
      rw [loopDict, loopDict_lookup_notMem _ _ _ _ hmem, lookup_dictSet_self, Nat.add_zero]

theorem loopDict_nodup (ns : List String) :
    ∀ (d : List (String × ℕ)) (i : ℕ), ns.Nodup →
      (∀ n ∈ ns, n ∉ d.map Prod.fst) →
      loopDict d i ns = d ++ zipIdxFrom ns i := by
  induction ns with
  | nil => intro d i _ _; simp [loopDict, zipIdxFrom]
  | cons n ns ih =>
    intro d i hnd hdisj
    rw [loopDict, dictSet_eq_append d n i (hdisj n (List.mem_cons_self n ns))]
    rw [ih (d ++ [(n, i)]) (i + 1) (List.Nodup.of_cons hnd) ?_]
    · simp [zipIdxFrom]
    · intro m hm
      simp only [List.map_append, List.mem_append, List.map_cons] at *
      push_neg
      refine ⟨hdisj m (List.mem_cons_of_mem n hm), ?_⟩
      simp only [List.map_nil, List.mem_singleton]
      intro hcontra
      subst hcontra
      exact (List.nodup_cons.mp hnd).1 hm

theorem zipIdxFrom_map_snd (ns : List String) :
    ∀ i : ℕ, (zipIdxFrom ns i).map Prod.snd = List.range' i ns.length := by
  induction ns with
  | nil => intro i; simp [zipIdxFrom]
  | cons n ns ih => intro i; simp [zipIdxFrom, List.range', ih]

theorem zipIdxFrom_map_fst (ns : List String) :
    ∀ i : ℕ, (zipIdxFrom ns i).map Prod.fst = ns := by
  induction ns with
  | nil => intro i; simp [zipIdxFrom]
  | cons n ns ih => intro i; simp [zipIdxFrom, ih]

theorem mappingLoop_ok (st : YoloeState) (nm : ℕ → String) (ids : List ℕ) :
    ∀ (i : ℕ) (lines : List String) (dict : List (String × ℕ)),
      (∀ c ∈ ids, resolveMapName st c = some (nm c)) →
      mappingLoop st ids i lines dict =
        some (lines ++ ids.map nm, loopDict dict i (ids.map nm)) := by
  induction ids with
  | nil => intro i lines dict _; simp [mappingLoop, loopDict]
  | cons c ids ih =>
    intro i lines dict hres
    rw [mappingLoop, hres c (List.mem_cons_self c ids)]
    show mappingLoop st ids (i + 1) (lines ++ [nm c]) (dictSet dict (nm c) i) = _
    rw [ih (i + 1) (lines ++ [nm c]) (dictSet dict (nm c) i)
      (fun x hx => hres x (List.mem_cons_of_mem c hx))]
    simp [loopDict]

/-! ### Counter lemmas -/

theorem bumpCounter_map_fst (c : List (ℕ × ℕ)) (x : ℕ) :
    (bumpCounter c x).map Prod.fst =
      if x ∈ c.map Prod.fst then c.map Prod.fst else c.map Prod.fst ++ [x] := by
  induction c with
  | nil => simp [bumpCounter]
  | cons hd tl ih =>
    obtain ⟨k, v⟩ := hd
    by_cases h : k = x
    · subst h
      simp [bumpCounter]
    · simp only [bumpCounter, if_neg h, List.map_cons, List.mem_cons, ih]
      by_cases hmem : x ∈ tl.map Prod.fst
      · simp [hmem, Ne.symm h]
      · simp [hmem, Ne.symm h]

theorem counterTotal_bump (c : List (ℕ × ℕ)) (x : ℕ) :
    counterTotal (bumpCounter c x) = counterTotal c + 1 := by
  induction c with
  | nil => simp [bumpCounter, counterTotal]
  | cons hd tl ih =>
    obtain ⟨k, v⟩ := hd
    by_cases h : k = x
    · subst h
      simp [bumpCounter, counterTotal]
      omega
    · simp only [bumpCounter, if_neg h, counterTotal, List.map_cons, List.sum_cons] at *
      omega

theorem bumpCounter_nodup_keys (c : List (ℕ × ℕ)) (x : ℕ)
    (h : (c.map Prod.fst).Nodup) : ((bumpCounter c x).map Prod.fst).Nodup := by
  rw [bumpCounter_map_fst]
  by_cases hmem : x ∈ c.map Prod.fst
  · simpa [hmem]
  · simp only [if_neg hmem]
    simpa [List.nodup_append, hmem] using h

theorem bumpCounter_keys_toFinset (c : List (ℕ × ℕ)) (x : ℕ) :
    ((bumpCounter c x).map Prod.fst).toFinset =
      insert x (c.map Prod.fst).toFinset := by
  rw [bumpCounter_map_fst]
  by_cases hmem : x ∈ c.map Prod.fst
  · rw [if_pos hmem]
    have : x ∈ (c.map Prod.fst).toFinset := List.mem_toFinset.mpr hmem
    rw [Finset.insert_eq_self.mpr this]
  · rw [if_neg hmem]
    ext y
    simp [or_comm]

theorem foldBump_nodup_keys (ids : List ℕ) :
    ∀ c : List (ℕ × ℕ), (c.map Prod.fst).Nodup →
      ((foldBump c ids).map Prod.fst).Nodup := by
  induction ids with
  | nil => intro c h; exact h
  | cons x ids ih =>
    intro c h
    exact ih (bumpCounter c x) (bumpCounter_nodup_keys c x h)

theorem foldBump_keys_toFinset (ids : List ℕ) :
    ∀ c : List (ℕ × ℕ), ((foldBump c ids).map Prod.fst).toFinset =
      (c.map Prod.fst).toFinset ∪ ids.toFinset := by
  induction ids with
  | nil => intro c; simp [foldBump]
  | cons x ids ih =>
    intro c
    show ((foldBump (bumpCounter c x) ids).map Prod.fst).toFinset = _
    rw [ih (bumpCounter c x), bumpCounter_keys_toFinset]
    ext y
    simp [or_comm, or_assoc, or_left_comm]

theorem foldBump_counterTotal (ids : List ℕ) :
    ∀ c : List (ℕ × ℕ), counterTotal (foldBump c ids) = counterTotal c + ids.length := by
  induction ids with
  | nil => intro c; simp [foldBump]
  | cons x ids ih =>
    intro c
    show counterTotal (foldBump (bumpCounter c x) ids) = _
    rw [ih (bumpCounter c x), counterTotal_bump]
    simp only [List.length_cons]
    omega

theorem foldBump_append (c : List (ℕ × ℕ)) (a b : List ℕ) :
    foldBump c (a ++ b) = foldBump (foldBump c a) b := by
  simp [foldBump, List.foldl_append]

/-- The number of counter entries equals the number of distinct accepted
class ids. -/
theorem foldBump_nil_length (ids : List ℕ) :
    (foldBump [] ids).length = ids.toFinset.card := by
  have hnd : ((foldBump ([] : List (ℕ × ℕ)) ids).map Prod.fst).Nodup :=
    foldBump_nodup_keys ids [] (by simp)
  have hfin : ((foldBump ([] : List (ℕ × ℕ)) ids).map Prod.fst).toFinset = ids.toFinset := by
    rw [foldBump_keys_toFinset]
    simp
  calc (foldBump [] ids).length
      = ((foldBump ([] : List (ℕ × ℕ)) ids).map Prod.fst).length := by simp
    _ = ((foldBump ([] : List (ℕ × ℕ)) ids).map Prod.fst).toFinset.card :=
        (List.toFinset_card_of_nodup hnd).symm
    _ = ids.toFinset.card := by rw [hfin]

/-! ### Inference-loop lemmas -/

theorem acceptedClassIds_cons (o : Oracle) (p : String) (paths : List String) :
    acceptedClassIds o (p :: paths) = acceptedIdsOf o p ++ acceptedClassIds o paths := by
  simp [acceptedClassIds]

theorem processFold_spec (o : Oracle) (paths : List String) :
    ∀ acc : BatchAcc,
      (paths.foldl (processOne o) acc).failed =
          acc.failed + (paths.filter (fun p => inferFails o p)).length ∧
      (paths.foldl (processOne o) acc).successful =
          acc.successful + (paths.filter (fun p => ! inferFails o p)).length ∧
      (paths.foldl (processOne o) acc).allResults =
          acc.allResults ++ (paths.filter (fun p => ! inferFails o p)).map (resultTriple o) ∧
      (paths.foldl (processOne o) acc).counter =
          foldBump acc.counter (acceptedClassIds o paths) := by
  induction paths with
  | nil => intro acc; simp [acceptedClassIds, foldBump]
  | cons p paths ih =>
    intro acc
    rw [List.foldl_cons, acceptedClassIds_cons]
    cases h : o.infer p with
    | err =>
      have hf : inferFails o p = true := by simp [inferFails, h]
      have hids : acceptedIdsOf o p = [] := by simp [acceptedIdsOf, h]
      rw [show processOne o acc p = { acc with failed := acc.failed + 1 } from by
        simp [processOne, h]]
      obtain ⟨ihf, ihs, ihr, ihc⟩ := ih { acc with failed := acc.failed + 1 }
      rw [ihf, ihs, ihr, ihc]
      refine ⟨?_, ?_, ?_, ?_⟩ <;> simp [List.filter_cons, hf, hids] <;> try omega
    | noResults =>
      have hf : inferFails o p = true := by simp [inferFails, h]
      have hids : acceptedIdsOf o p = [] := by simp [acceptedIdsOf, h]
      rw [show processOne o acc p = { acc with failed := acc.failed + 1 } from by
        simp [processOne, h]]
      obtain ⟨ihf, ihs, ihr, ihc⟩ := ih { acc with failed := acc.failed + 1 }
      rw [ihf, ihs, ihr, ihc]
      refine ⟨?_, ?_, ?_, ?_⟩ <;> simp [List.filter_cons, hf, hids] <;> try omega
    | res boxes resNames =>
      have hf : inferFails o p = false := by simp [inferFails, h]
      cases boxes with
      | none =>
        have hids : acceptedIdsOf o p = [] := by simp [acceptedIdsOf, h]
        have htrip : resultTriple o p = (p, resNames, []) := by simp [resultTriple, h]
        rw [show processOne o acc p =
            { acc with allResults := acc.allResults ++ [(p, resNames, [])],
                       successful := acc.successful + 1 } from by
          simp [processOne, h]]
        obtain ⟨ihf, ihs, ihr, ihc⟩ := ih
          { acc with allResults := acc.allResults ++ [(p, resNames, [])],
                     successful := acc.successful + 1 }
        rw [ihf, ihs, ihr, ihc]
        refine ⟨?_, ?_, ?_, ?_⟩ <;> simp [List.filter_cons, hf, hids, htrip] <;> try omega
      | some bs =>
        have hids : acceptedIdsOf o p =
            (bs.filter (fun b => b.cls.isSome)).map (fun b => b.cls.getD 0) := by
          simp [acceptedIdsOf, h]
        have htrip : resultTriple o p = (p, resNames, bs.filter (fun b => b.cls.isSome)) := by
          simp [resultTriple, h]
        rw [show processOne o acc p =
            { acc with
                counter := (bs.filter (fun b => b.cls.isSome)).foldl
                  (fun c b => bumpCounter c (b.cls.getD 0)) acc.counter,
                allResults := acc.allResults ++ [(p, resNames, bs.filter (fun b => b.cls.isSome))],
                successful := acc.successful + 1 } from by
          simp [processOne, h]]
        obtain ⟨ihf, ihs, ihr, ihc⟩ := ih
          { acc with
              counter := (bs.filter (fun b => b.cls.isSome)).foldl
                (fun c b => bumpCounter c (b.cls.getD 0)) acc.counter,
              allResults := acc.allResults ++ [(p, resNames, bs.filter (fun b => b.cls.isSome))],
              successful := acc.successful + 1 }
        rw [ihf, ihs, ihr, ihc]
        have hcnt : (bs.filter (fun b => b.cls.isSome)).foldl
            (fun c b => bumpCounter c (b.cls.getD 0)) acc.counter =
            foldBump acc.counter (acceptedIdsOf o p) := by
          rw [hids, foldBump, List.foldl_map]
        refine ⟨?_, ?_, ?_, ?_⟩
        · simp [List.filter_cons, hf]
          try omega
        · simp [List.filter_cons, hf]
          try omega
        · simp [List.filter_cons, hf, htrip]
        · show foldBump _ _ = _
          rw [hcnt, ← foldBump_append]

/-- `processImages` observables: failures are the images whose inference
fails, successes the rest (in order, with their retained triples), and the
counter is the fold of all accepted class ids. -/
theorem processImages_spec (o : Oracle) (paths : List String) :
    (processImages o paths).failed = (paths.filter (fun p => inferFails o p)).length ∧
    (processImages o paths).successful = (paths.filter (fun p => ! inferFails o p)).length ∧
    (processImages o paths).allResults =
      (paths.filter (fun p => ! inferFails o p)).map (resultTriple o) ∧
    (processImages o paths).counter = foldBump [] (acceptedClassIds o paths) := by
  have h := processFold_spec o paths { counter := [], allResults := [], successful := 0, failed := 0 }
  simpa [processImages] using h

/-! ### Writer lemmas -/

/-- `writeAll` performs exactly the write events of `writtenFiles`, and the
`annotation_files_created` count is their number. -/
theorem writeAll_spec (st : YoloeState) (o : Oracle) (dict : List (String × ℕ))
    (rs : List (String × Option (List (ℕ × String)) × List Box)) :
    writeAll st o dict rs = (writtenFiles st o dict rs, (writtenFiles st o dict rs).length) := by
  induction rs with
  | nil => simp [writeAll, writtenFiles]
  | cons r rs ih =>
    obtain ⟨p, resNames, dets⟩ := r
    rw [writeAll, ih]
    cases hl : annotationLines st resNames dict dets with
    | none => simp [writtenFiles, List.filterMap_cons, hl]
    | some lines =>
      by_cases hw : o.writeOk p
      · simp [writtenFiles, List.filterMap_cons, hl, hw]
      · simp [writtenFiles, List.filterMap_cons, hl, hw]

theorem resolveMapName_isSome (st : YoloeState) (c : ℕ)
    (h : st.class_names.isSome) : (resolveMapName st c).isSome := by
  obtain ⟨l, hl⟩ := Option.isSome_iff_exists.mp h
  cases hm : st.model with
  | none => simp [resolveMapName, hm, hl]
  | some nmo =>
    cases nmo with
    | none => simp [resolveMapName, hm, hl]
    | some nm => cases nm <;> simp [resolveMapName, hm]

theorem resolveWriteName_isSome (st : YoloeState)
    (resNames : Option (List (ℕ × String))) (c : ℕ)
    (h : st.class_names.isSome) : (resolveWriteName st resNames c).isSome := by
  cases resNames with
  | none => exact resolveMapName_isSome st c h
  | some table =>
    cases ht : table.lookup c with
    | none => simpa [resolveWriteName, ht] using resolveMapName_isSome st c h
    | some n => simp [resolveWriteName, ht]

/-- Under total name resolution, the annotation-line loop never raises and
produces exactly one line per retained (well-formed) box, in order. -/
theorem annotationLines_spec (st : YoloeState) (resNames : Option (List (ℕ × String)))
    (dict : List (String × ℕ)) (dets : List Box)
    (hres : ∀ b ∈ dets, ∀ c, b.cls = some c → (resolveWriteName st resNames c).isSome) :
    annotationLines st resNames dict dets =
      some ((dets.filter wfBox).map (lineOf st resNames dict)) := by
  induction dets with
  | nil => simp [annotationLines]
  | cons b rest ih =>
    have hrest : ∀ x ∈ rest, ∀ c, x.cls = some c → (resolveWriteName st resNames c).isSome :=
      fun x hx => hres x (List.mem_cons_of_mem b hx)
    cases hc : b.cls with
    | none =>
      have hwf : wfBox b = false := by simp [wfBox, hc]
      simp [annotationLines, hc, List.filter_cons, hwf, ih hrest]
    | some c =>
      cases hx : b.xywhn with
      | none =>
        have hwf : wfBox b = false := by simp [wfBox, hc, hx]
        simp [annotationLines, hc, hx, List.filter_cons, hwf, ih hrest]
      | some coords =>
        have hwf : wfBox b = true := by simp [wfBox, hc, hx]
        obtain ⟨name, hname⟩ := Option.isSome_iff_exists.mp
          (hres b (List.mem_cons_self b rest) c hc)
        have hline : lineOf st resNames dict b =
            annLine ((dict.lookup name).getD 0) coords := by
          simp [lineOf, hc, hx, hname]
        simp [annotationLines, hc, hx, hname, List.filter_cons, hwf, ih hrest, hline]

/-- Every write event comes from a retained image whose write succeeded. -/
theorem mem_writtenFiles (st : YoloeState) (o : Oracle) (dict : List (String × ℕ))
    (rs : List (String × Option (List (ℕ × String)) × List Box))
    (pr : String × List String) (hpr : pr ∈ writtenFiles st o dict rs) :
    o.writeOk pr.1 = true ∧
    ∃ r ∈ rs, r.1 = pr.1 ∧ annotationLines st r.2.1 dict r.2.2 = some pr.2 := by
  obtain ⟨r, hr, hf⟩ := List.mem_filterMap.mp hpr
  cases hl : annotationLines st r.2.1 dict r.2.2 with
  | none => rw [hl] at hf; cases hf
  | some lines =>
    rw [hl] at hf
    by_cases hw : o.writeOk r.1
    · simp only [if_pos hw] at hf
      injection hf with hf
      subst hf
      exact ⟨hw, r, hr, rfl, hl⟩
    · simp [hw] at hf

/-- A retained image whose lines computation succeeds and whose write
succeeds produces its write event. -/
theorem writtenFiles_mem (st : YoloeState) (o : Oracle) (dict : List (String × ℕ))
    (rs : List (String × Option (List (ℕ × String)) × List Box))
    (r : String × Option (List (ℕ × String)) × List Box) (lines : List String)
    (hr : r ∈ rs) (hl : annotationLines st r.2.1 dict r.2.2 = some lines)
    (hw : o.writeOk r.1 = true) : (r.1, lines) ∈ writtenFiles st o dict rs := by
  refine List.mem_filterMap.mpr ⟨r, hr, ?_⟩
  rw [hl]
  simp [hw]

/-- If no class id was accepted anywhere in the batch, every image's
accepted ids are empty. -/
theorem acceptedIdsOf_eq_nil_of_batch_nil (o : Oracle) (paths : List String)
    (h : acceptedClassIds o paths = []) :
    ∀ p ∈ paths, acceptedIdsOf o p = [] := by
  induction paths with
  | nil => intro p hp; cases hp
  | cons x paths ih =>
    rw [acceptedClassIds_cons] at h
    obtain ⟨h1, h2⟩ := List.append_eq_nil.mp h
    intro p hp
    rcases List.mem_cons.mp hp with hp | hp
    · exact hp ▸ h1
    · exact ih h2 p hp

/-- An image with no accepted class ids retains an empty detection list. -/
theorem resultTriple_dets_nil (o : Oracle) (p : String)
    (h : acceptedIdsOf o p = []) : (resultTriple o p).2.2 = [] := by
  cases hi : o.infer p with
  | err => simp [resultTriple, hi]
  | noResults => simp [resultTriple, hi]
  | res boxes ns =>
    cases boxes with
    | none => simp [resultTriple, hi]
    | some bs =>
      simp only [acceptedIdsOf, hi] at h
      simp only [resultTriple, hi]
      exact List.map_eq_nil_iff.mp h

/-! ### Formatting lemmas -/

theorem digitChar_isDigit (n : ℕ) : (digitChar n).isDigit = true := by
  have h : n % 10 < 10 := Nat.mod_lt n (by norm_num)
  unfold digitChar
  interval_cases h : n % 10 <;> decide

theorem pad6_length (k : ℕ) : (pad6 k).length = 6 := by
  simp [pad6, String.length]

theorem pad6_digits (k : ℕ) : ∀ ch ∈ (pad6 k).toList, ch.isDigit = true := by
  intro ch hch
  have hlist : (pad6 k).toList = [digitChar (k / 100000), digitChar (k / 10000),
      digitChar (k / 1000), digitChar (k / 100), digitChar (k / 10), digitChar k] := rfl
  rw [hlist] at hch
  simp only [List.mem_cons, List.not_mem_nil, or_false] at hch
  rcases hch with h | h | h | h | h | h <;> (subst h; exact digitChar_isDigit _)

/-- The integer `round6` rounds on really is `⌊q * 10^6 + 1/2⌋`. -/
theorem round6_eq_floor (q : ℚ) : round6 q = ⌊q * 1000000 + 1 / 2⌋ := by
  have hden0 : ((q.den : ℚ)) ≠ 0 := by
    exact_mod_cast q.den_nz
  have hB : ((2 * q.den : ℕ) : ℚ) ≠ 0 := by
    push_cast
    simp [hden0]
  have hqd : q * (q.den : ℚ) = (q.num : ℚ) :=
    calc q * (q.den : ℚ) = ((q.num : ℚ) / (q.den : ℚ)) * (q.den : ℚ) := by
          rw [Rat.num_div_den]
      _ = (q.num : ℚ) := div_mul_cancel₀ _ hden0
  have hq : q * 1000000 + 1 / 2 =
      ((2 * q.num * 1000000 + (q.den : ℤ) : ℤ) : ℚ) / ((2 * q.den : ℕ) : ℚ) := by
    rw [eq_div_iff hB]
    push_cast
    linear_combination (2000000 : ℚ) * hqd
  rw [round6, hq, Rat.floor_intCast_div_natCast]

/-- Every `fmt6` output has the shape `intpart ++ "." ++ frac` with exactly
six decimal digits after the point. -/
theorem fmt6_shape (q : ℚ) : ∃ s t, fmt6 q = s ++ "." ++ t ∧ t.length = 6 ∧
    ∀ ch ∈ t.toList, ch.isDigit = true := by
  refine ⟨(if q.num < 0 then "-" else "") ++ toString ((round6 q).natAbs / 1000000),
    pad6 (round6 q).natAbs, ?_, pad6_length _, pad6_digits _⟩
  simp [fmt6, String.append_assoc]

/-! ### Class-mapping lemmas -/

theorem lookup_zipIdxFrom (ns : List String) :
    ∀ (i j : ℕ) (x : String), ns.Nodup → ns[j]? = some x →
      (zipIdxFrom ns i).lookup x = some (i + j) := by
  induction ns with
  | nil => intro i j x _ hx; simp at hx
  | cons n ns ih =>
    intro i j x hnd hx
    cases j with
    | zero =>
      simp only [List.getElem?_cons_zero, Option.some.injEq] at hx
      subst hx
      simp [zipIdxFrom, List.lookup_cons]
    | succ j =>
      simp only [List.getElem?_cons_succ] at hx
      have hmem : x ∈ ns := by
        have hj : j < ns.length := (List.getElem?_eq_some.mp hx).1
        exact List.mem_iff_getElem.mpr ⟨j, hj, (List.getElem?_eq_some.mp hx).2⟩
      have hne : x ≠ n := fun hc => (List.nodup_cons.mp hnd).1 (hc ▸ hmem)
      have hstep : (zipIdxFrom (n :: ns) i).lookup x =
          (zipIdxFrom ns (i + 1)).lookup x := by
        simp [zipIdxFrom, List.lookup_cons, beq_false_of_ne hne]
      rw [hstep, ih (i + 1) j x (List.Nodup.of_cons hnd) hx]
      congr 1
      omega

/-- `_generate_class_mapping` on a non-empty counter, under total name
resolution: the `classes.txt` lines are the resolved names of the sorted
class ids, and the dict is the index-assignment fold over them. -/
theorem generateClassMapping_ne (st : YoloeState) (counter : List (ℕ × ℕ))
    (nm : ℕ → String) (h : counter ≠ [])
    (hres : ∀ c ∈ counter.map Prod.fst, resolveMapName st c = some (nm c)) :
    generateClassMapping st counter =
      some ((List.insertionSort (· ≤ ·) (counter.map Prod.fst)).map nm,
        loopDict [] 0 ((List.insertionSort (· ≤ ·) (counter.map Prod.fst)).map nm)) := by
  rw [generateClassMapping, if_neg h]
  exact mappingLoop_ok st nm _ 0 [] []
    (fun c hc => hres c ((List.perm_insertionSort _ _).mem_iff.mp hc))

theorem generateClassMapping_empty (st : YoloeState) :
    generateClassMapping st [] = some (emptyMapping (st.class_names.getD [])) := by
  simp [generateClassMapping]

/-! ### Batch-run unfolding -/

theorem acceptedClassIds_append (o : Oracle) (a b : List String) :
    acceptedClassIds o (a ++ b) = acceptedClassIds o a ++ acceptedClassIds o b := by
  simp [acceptedClassIds]

theorem acceptedIdsOf_of_fails (o : Oracle) (p : String)
    (h : inferFails o p = true) : acceptedIdsOf o p = [] := by
  cases hi : o.infer p <;> simp [acceptedIdsOf, hi] <;> simp [inferFails, hi] at h

/-- A completed batch run: with an initialized model, valid confidence,
successful `mkdir`, a non-empty validated path list and a successful class
mapping, `predict_image` returns the statistics and file-system effects
expressed through the loop characterizations. -/
theorem predict_image_run (st : YoloeState) (o : Oracle) (images : List String)
    (conf : PyVal) (fs : FS) (q : ℚ) (clsLines : List String) (dict : List (String × ℕ))
    (hinit : st.is_initialized = true) (hmodel : st.model.isSome = true)
    (hconf : validate_confidence conf = Except.ok q) (hmk : o.mkdirOk = true)
    (hvalid : images.filter o.validPath ≠ [])
    (hmap : generateClassMapping st (processImages o (images.filter o.validPath)).counter
      = some (clsLines, dict)) :
    predict_image st o images conf fs =
      (Except.ok
        { total_images := (images.filter o.validPath).length,
          successful_predictions := (processImages o (images.filter o.validPath)).successful,
          failed_predictions := (processImages o (images.filter o.validPath)).failed,
          annotation_files_created :=
            (writtenFiles st o dict (processImages o (images.filter o.validPath)).allResults).length,
          classes_detected := (processImages o (images.filter o.validPath)).counter.length,
          total_detections := counterTotal (processImages o (images.filter o.validPath)).counter,
          class_distribution := (processImages o (images.filter o.validPath)).counter },
       { dirCreated := true, classesTxt := some clsLines,
         annFiles := writtenFiles st o dict (processImages o (images.filter o.validPath)).allResults }) := by
  have himg : images ≠ [] := by
    intro hcontra
    subst hcontra
    exact hvalid rfl
  rw [predict_image]
  rw [if_neg (by simp [hinit, hmodel])]
  rw [hconf]
  rw [if_neg (by simp [hmk])]
  rw [if_neg himg]
  simp only [if_neg hvalid, hmap, writeAll_spec]

/-! ### Claim theorems -/

theorem validate_confidence_of_none (v : PyVal) (hv : pyNumVal v = none) :
    validate_confidence v = Except.error (PyErr.invalidParameter "conf type") := by
  unfold validate_confidence
  rw [hv]

theorem validate_confidence_of_some (v : PyVal) (q : ℚ) (hv : pyNumVal v = some q) :
    validate_confidence v =
      if 0 ≤ q ∧ q ≤ 1 then Except.ok q
      else Except.error (PyErr.invalidParameter "conf range") := by
  unfold validate_confidence
  rw [hv]

/-- **C10**: `Validator.validate_confidence` accepts exactly the numeric
Python inputs (ints, floats, and bools — `bool` being a subclass of `int`)
whose value lies in `[0, 1]`, returning the value as a float, with
`True ↦ 1.0`, `False ↦ 0.0` and the boundary ints accepted; every
non-numeric input and every out-of-range numeric input raises
`InvalidParameterError`. -/
theorem c10_validate_confidence_spec :
    (∀ (v : PyVal) (q : ℚ), validate_confidence v = Except.ok q ↔
        pyNumVal v = some q ∧ 0 ≤ q ∧ q ≤ 1) ∧
    validate_confidence (PyVal.bool true) = Except.ok 1 ∧
    validate_confidence (PyVal.bool false) = Except.ok 0 ∧
    validate_confidence (PyVal.int 0) = Except.ok 0 ∧
    validate_confidence (PyVal.int 1) = Except.ok 1 ∧
    (∀ v : PyVal, (¬ ∃ q, pyNumVal v = some q ∧ 0 ≤ q ∧ q ≤ 1) →
        ∃ m, validate_confidence v = Except.error (PyErr.invalidParameter m)) := by
  refine ⟨?_,
    by norm_num [validate_confidence_of_some (PyVal.bool true) 1 rfl],
    by norm_num [validate_confidence_of_some (PyVal.bool false) 0 rfl],
    by norm_num [validate_confidence_of_some (PyVal.int 0) 0 (by norm_num [pyNumVal])],
    by norm_num [validate_confidence_of_some (PyVal.int 1) 1 (by norm_num [pyNumVal])], ?_⟩
  · intro v q
    constructor
    · intro hok
      cases hv : pyNumVal v with
      | none =>
        rw [validate_confidence_of_none v hv] at hok
        exact absurd hok (by simp)
      | some q2 =>
        rw [validate_confidence_of_some v q2 hv] at hok
        by_cases hq : 0 ≤ q2 ∧ q2 ≤ 1
        · rw [if_pos hq] at hok
          injection hok with h
          subst h
          exact ⟨rfl, hq.1, hq.2⟩
        · rw [if_neg hq] at hok
          exact absurd hok (by simp)
    · rintro ⟨h1, h2, h3⟩
      rw [validate_confidence_of_some v q h1, if_pos ⟨h2, h3⟩]
  · intro v hv
    cases h : pyNumVal v with
    | none => exact ⟨"conf type", validate_confidence_of_none v h⟩
    | some q =>
      have hq : ¬ (0 ≤ q ∧ q ≤ 1) := fun hq => hv ⟨q, h, hq.1, hq.2⟩
      rw [validate_confidence_of_some v q h, if_neg hq]
      exact ⟨"conf range", rfl⟩

theorem c10_validate_confidence_spec_witness :
    ∃ m, validate_confidence (PyVal.str "high") =
      Except.error (PyErr.invalidParameter m) :=
  c10_validate_confidence_spec.2.2.2.2.2 (PyVal.str "high") (by simp [pyNumVal])

/-- **C9**: any `init_model` call that raises — for any cause — leaves
`is_initialized = False`, even when a previous configuration had
succeeded, and a subsequent `predict_image` on that state fails with the
distinct not-initialized `ModelPredictionError`, leaving the output
directory untouched. -/
theorem c9_init_failure_resets (st : YoloeState) (env : InitOracle)
    (model_name : String) (names : List String) (valid_models : List String)
    (e : PyErr) (o : Oracle) (images : List String) (conf : PyVal) (fs : FS)
    (hfail : (init_model st env model_name names valid_models).2 = Except.error e) :
    (init_model st env model_name names valid_models).1.is_initialized = false ∧
    predict_image (init_model st env model_name names valid_models).1 o images conf fs =
      (Except.error (PyErr.modelPrediction "model not initialized"), fs) := by
  have hinit : (init_model st env model_name names valid_models).1.is_initialized = false := by
    unfold init_model at hfail ⊢
    cases hp : validate_prompts names with
    | error e2 => simp [hp]
    | ok vnames =>
      cases hm : validate_model_name model_name valid_models with
      | error e2 => simp [hp, hm]
      | ok vmodel =>
        by_cases hf : env.fileExists
        · cases hl : env.loadResult with
          | none => simp [hp, hm, hf, hl]
          | some nm =>
            by_cases hb : env.bindOk
            · rw [hp, hm] at hfail
              simp [hf, hl, hb] at hfail
            · simp [hp, hm, hf, hl, hb]
        · simp [hp, hm, hf]
  refine ⟨hinit, ?_⟩
  rw [predict_image, if_pos (by simp [hinit])]

theorem c9_init_failure_resets_witness :
    (init_model sampleState missingFileEnv "m.pt" [] ["m.pt"]).1.is_initialized = false ∧
    predict_image (init_model sampleState missingFileEnv "m.pt" [] ["m.pt"]).1
        sampleOracle ["a.jpg"] (PyVal.bool true) FS.empty =
      (Except.error (PyErr.modelPrediction "model not initialized"), FS.empty) :=
  c9_init_failure_resets sampleState missingFileEnv "m.pt" [] ["m.pt"]
    (PyErr.modelInitialization "invalid prompts") sampleOracle ["a.jpg"]
    (PyVal.bool true) FS.empty rfl

/-- **C2** (amended): with an initialized model, a valid confidence and a
successful `mkdir`, an empty input list — or one whose every path is
dropped by per-path validation — makes `predict_image` raise
`ModelPredictionError` before any inference and before writing any file,
but only AFTER the output directory has been created: `mkdir` (yoloe.py
line 108) runs before the emptiness check (line 112) and the per-path
filtering (lines 116-125). -/
theorem c2_empty_input_error_after_mkdir (st : YoloeState) (o : Oracle)
    (images : List String) (conf : PyVal) (fs : FS) (q : ℚ)
    (hinit : st.is_initialized = true) (hmodel : st.model.isSome = true)
    (hconf : validate_confidence conf = Except.ok q) (hmk : o.mkdirOk = true)
    (hempty : images.filter o.validPath = []) :
    ∃ msg, predict_image st o images conf fs =
      (Except.error (PyErr.modelPrediction msg), { fs with dirCreated := true }) := by
  rw [predict_image, if_neg (by simp [hinit, hmodel]), hconf, if_neg (by simp [hmk])]
  by_cases himg : images = []
  · exact ⟨"image path list must not be empty", by rw [if_pos himg]⟩
  · refine ⟨"no valid image files found", ?_⟩
    rw [if_neg himg, if_pos hempty]

theorem c2_empty_input_error_after_mkdir_witness :
    ∃ msg, predict_image sampleState sampleOracle [] (PyVal.bool true) FS.empty =
      (Except.error (PyErr.modelPrediction msg), { FS.empty with dirCreated := true }) :=
  c2_empty_input_error_after_mkdir sampleState sampleOracle [] (PyVal.bool true)
    FS.empty 1 rfl rfl (by norm_num [validate_confidence_of_some (PyVal.bool true) 1 rfl])
    rfl rfl

/-- **C2 counterexample**: an initialized model, a valid confidence and an
empty image-path list: `predict_image` does fail with the expected
validation error, but the output directory HAS been created
(`dirCreated = true`), contradicting the claim that the output directory
must not be created on this failure. -/
theorem c2_counterexample :
    (predict_image sampleState sampleOracle [] (PyVal.bool true) FS.empty).1 =
      Except.error (PyErr.modelPrediction "image path list must not be empty") ∧
    (predict_image sampleState sampleOracle [] (PyVal.bool true) FS.empty).2.dirCreated = true :=
  ⟨rfl, rfl⟩

/-- **C5**: `_write_annotation_file` writes exactly one line per retained
detection that has both a class id and box coordinates, of the form
`"{index} {cx:.6f} {cy:.6f} {w:.6f} {h:.6f}"` with every coordinate carrying
exactly six decimal digits; detections lacking a class id or lacking box
coordinates are silently skipped rather than raising; and a resolved class
name absent from the mapping falls back to index 0. -/
theorem c5_annotation_line_format (st : YoloeState)
    (resNames : Option (List (ℕ × String))) (dict : List (String × ℕ))
    (dets : List Box)
    (hres : ∀ b ∈ dets, ∀ c, b.cls = some c → (resolveWriteName st resNames c).isSome) :
    annotationLines st resNames dict dets =
      some ((dets.filter wfBox).map (lineOf st resNames dict)) ∧
    (∀ b ∈ dets, ∀ c coords, b.cls = some c → b.xywhn = some coords →
      lineOf st resNames dict b =
        toString ((dict.lookup ((resolveWriteName st resNames c).getD "")).getD 0) ++
          " " ++ fmt6 coords.1 ++ " " ++ fmt6 coords.2.1 ++ " " ++ fmt6 coords.2.2.1 ++
          " " ++ fmt6 coords.2.2.2) ∧
    (∀ q : ℚ, ∃ s t, fmt6 q = s ++ "." ++ t ∧ t.length = 6 ∧
      ∀ ch ∈ t.toList, ch.isDigit = true) ∧
    (∀ b ∈ dets, ∀ c coords, b.cls = some c → b.xywhn = some coords →
      dict.lookup ((resolveWriteName st resNames c).getD "") = none →
      ∃ rest, lineOf st resNames dict b = "0 " ++ rest) := by
  refine ⟨annotationLines_spec st resNames dict dets hres, ?_, fmt6_shape, ?_⟩
  · intro b _ c coords hc hx
    simp [lineOf, annLine, hc, hx]
  · intro b _ c coords hc hx hlook
    refine ⟨fmt6 coords.1 ++ " " ++ fmt6 coords.2.1 ++ " " ++ fmt6 coords.2.2.1 ++
      " " ++ fmt6 coords.2.2.2, ?_⟩
    simp [lineOf, annLine, hc, hx, hlook]
    rfl

theorem c5_annotation_line_format_witness :
    annotationLines sampleState (some [(0, "person"), (1, "car")])
        [("person", 0), ("car", 1)]
        [{ cls := some 1, xywhn := some (mkRat 1 2, mkRat 1 2, mkRat 1 4, mkRat 1 4) },
         { cls := none, xywhn := some (0, 0, 0, 0) },
         { cls := some 0, xywhn := none }] =
      some ["1 0.500000 0.500000 0.250000 0.250000"] := by
  have h := (c5_annotation_line_format sampleState (some [(0, "person"), (1, "car")])
    [("person", 0), ("car", 1)]
    [{ cls := some 1, xywhn := some (mkRat 1 2, mkRat 1 2, mkRat 1 4, mkRat 1 4) },
     { cls := none, xywhn := some (0, 0, 0, 0) },
     { cls := some 0, xywhn := none }] (by decide)).1
  rw [h]
  rfl

/-- **C1** (amended): for a batch with at least one detection, provided the
resolved class names of the detected ids are pairwise distinct (no name
collisions — e.g. no duplicate prompt names), `_generate_class_mapping`
assigns batch-local indices in ascending numeric order of the original
detector class id; the mapping's index values are exactly the contiguous
range `[0, N)` with no gaps or duplicates; `classes.txt` has exactly
`classesDetected` lines; and the name on line `j` (0-indexed) has index `j`
in the mapping. -/
theorem c1_class_mapping (st : YoloeState) (counter : List (ℕ × ℕ)) (nm : ℕ → String)
    (hne : counter ≠ [])
    (hnd : (counter.map Prod.fst).Nodup)
    (hres : ∀ c ∈ counter.map Prod.fst, resolveMapName st c = some (nm c))
    (hinj : ∀ c ∈ counter.map Prod.fst, ∀ c2 ∈ counter.map Prod.fst, nm c = nm c2 → c = c2) :
    ∃ lines dict, generateClassMapping st counter = some (lines, dict) ∧
      lines.length = counter.length ∧
      dict.map Prod.snd = List.range counter.length ∧
      ∃ sorted, sorted.Perm (counter.map Prod.fst) ∧ List.Sorted (· ≤ ·) sorted ∧
        lines = sorted.map nm ∧
        (∀ (j : ℕ) (x : String), lines[j]? = some x → dict.lookup x = some j) := by
  have hperm : (List.insertionSort (· ≤ ·) (counter.map Prod.fst)).Perm
      (counter.map Prod.fst) := List.perm_insertionSort _ _
  have hsortnd : (List.insertionSort (· ≤ ·) (counter.map Prod.fst)).Nodup :=
    hperm.symm.nodup hnd
  have hlinesnd : ((List.insertionSort (· ≤ ·) (counter.map Prod.fst)).map nm).Nodup :=
    List.Nodup.map_on
      (fun x hx y hy hxy => hinj x (hperm.mem_iff.mp hx) y (hperm.mem_iff.mp hy) hxy)
      hsortnd
  have hgen := generateClassMapping_ne st counter nm hne hres
  have hld : loopDict [] 0 ((List.insertionSort (· ≤ ·) (counter.map Prod.fst)).map nm) =
      zipIdxFrom ((List.insertionSort (· ≤ ·) (counter.map Prod.fst)).map nm) 0 := by
    have h := loopDict_nodup ((List.insertionSort (· ≤ ·) (counter.map Prod.fst)).map nm)
      [] 0 hlinesnd (by simp)
    simpa using h
  have hlen : ((List.insertionSort (· ≤ ·) (counter.map Prod.fst)).map nm).length =
      counter.length := by
    rw [List.length_map, hperm.length_eq, List.length_map]
  refine ⟨_, _, hgen, hlen, ?_, _, hperm, List.sorted_insertionSort _ _, rfl, ?_⟩
  · rw [hld, zipIdxFrom_map_snd, hlen, List.range_eq_range']
  · intro j x hx
    rw [hld]
    have h := lookup_zipIdxFrom _ 0 j x hlinesnd hx
    simpa using h

theorem c1_class_mapping_witness :
    ∃ lines dict, generateClassMapping sampleState [(1, 2), (0, 1)] = some (lines, dict) ∧
      lines.length = ([(1, 2), (0, 1)] : List (ℕ × ℕ)).length ∧
      dict.map Prod.snd = List.range ([(1, 2), (0, 1)] : List (ℕ × ℕ)).length ∧
      ∃ sorted, sorted.Perm (([(1, 2), (0, 1)] : List (ℕ × ℕ)).map Prod.fst) ∧
        List.Sorted (· ≤ ·) sorted ∧
        lines = sorted.map (fun k => if k = 0 then "person" else "car") ∧
        (∀ (j : ℕ) (x : String), lines[j]? = some x → dict.lookup x = some j) :=
  c1_class_mapping sampleState [(1, 2), (0, 1)]
    (fun k => if k = 0 then "person" else "car")
    (by decide) (by decide) (by decide) (by decide)

/-- **C1 counterexample**: ids 0 and 1 are both detected once and both
resolve to the name `"a"` (the model's name table carries duplicate names,
reachable via duplicate configured prompts).  `classes.txt` then has
`classesDetected = 2` lines, but the mapping collapses to the single entry
`("a", 1)`: its index values are `[1]`, not the contiguous range `[0, 2)`,
and line 0 does not carry the index of its name — refuting the claim as
stated. -/
theorem c1_counterexample :
    generateClassMapping collisionState [(0, 1), (1, 1)] =
      some (["a", "a"], [("a", 1)]) ∧
    ¬ (([("a", 1)] : List (String × ℕ)).map Prod.snd =
        List.range ([(0, 1), (1, 1)] : List (ℕ × ℕ)).length) :=
  ⟨rfl, by decide⟩

/-- **C8**: round-trip — for every accepted detection with original class
id `c`, resolving `c`'s name through the mapping generator's
name-resolution chain, looking that name up in the batch mapping to obtain
index `i`, and reading line `i` (0-indexed) of `classes.txt`, yields the
same name originally resolved for `c`.  (Holds even when distinct ids
collide on one name.) -/
theorem c8_round_trip (st : YoloeState) (counter : List (ℕ × ℕ)) (nm : ℕ → String)
    (c : ℕ)
    (hres : ∀ k ∈ counter.map Prod.fst, resolveMapName st k = some (nm k))
    (hc : c ∈ counter.map Prod.fst) :
    ∃ lines dict i, generateClassMapping st counter = some (lines, dict) ∧
      dict.lookup (nm c) = some i ∧ lines[i]? = some (nm c) := by
  have hne : counter ≠ [] := by
    intro h
    subst h
    simp at hc
  have hgen := generateClassMapping_ne st counter nm hne hres
  have hmem : nm c ∈ (List.insertionSort (· ≤ ·) (counter.map Prod.fst)).map nm :=
    List.mem_map_of_mem nm ((List.perm_insertionSort _ _).mem_iff.mpr hc)
  obtain ⟨j, hj, hlook, hget⟩ :=
    loopDict_lookup_mem ((List.insertionSort (· ≤ ·) (counter.map Prod.fst)).map nm)
      [] 0 (nm c) hmem
  refine ⟨_, _, j, hgen, ?_, ?_⟩
  · rw [hlook]
    congr 1
    omega
  · rw [List.getElem?_eq_getElem hj, ← hget]
    simp

theorem c8_round_trip_witness :
    ∃ lines dict i,
      generateClassMapping sampleState [(1, 2), (0, 1)] = some (lines, dict) ∧
      dict.lookup ((fun k => if k = 0 then "person" else "car") 0) = some i ∧
      lines[i]? = some ((fun k => if k = 0 then "person" else "car") 0) :=
  c8_round_trip sampleState [(1, 2), (0, 1)]
    (fun k => if k = 0 then "person" else "car") 0 (by decide) (by decide)

theorem filter_length_partition (l : List String) (f : String → Bool) :
    (l.filter (fun x => ! f x)).length + (l.filter f).length = l.length := by
  induction l with
  | nil => rfl
  | cons x l ih =>
    by_cases h : f x
    · simp only [List.filter_cons, h, Bool.not_true, List.length_cons]
      simpa using by omega
    · simp only [List.filter_cons, h, List.length_cons]
      simp only [Bool.not_false] at *
      simp [h, List.length_cons]
      omega

theorem resultTriple_fst (o : Oracle) (p : String) : (resultTriple o p).1 = p := by
  cases hi : o.infer p with
  | err => simp [resultTriple, hi]
  | noResults => simp [resultTriple, hi]
  | res boxes ns => cases boxes <;> simp [resultTriple, hi]

/-- **C3**: for every completed batch run the statistics cohere:
`total_images` is the number of validated input paths,
`successful_predictions` and `failed_predictions` partition it,
`classes_detected` is the number of distinct original class ids with at
least one accepted detection, `total_detections` is the sum of the
per-class counts, and `annotation_files_created` counts the per-image
files successfully written. -/
theorem c3_batch_statistics (st : YoloeState) (o : Oracle) (images : List String)
    (conf : PyVal) (fs : FS) (q : ℚ) (clsLines : List String) (dict : List (String × ℕ))
    (hinit : st.is_initialized = true) (hmodel : st.model.isSome = true)
    (hconf : validate_confidence conf = Except.ok q) (hmk : o.mkdirOk = true)
    (hvalid : images.filter o.validPath ≠ [])
    (hmap : generateClassMapping st (processImages o (images.filter o.validPath)).counter
      = some (clsLines, dict)) :
    ∃ stats fs1, predict_image st o images conf fs = (Except.ok stats, fs1) ∧
      stats.total_images = (images.filter o.validPath).length ∧
      stats.successful_predictions + stats.failed_predictions = stats.total_images ∧
      stats.classes_detected =
        (acceptedClassIds o (images.filter o.validPath)).toFinset.card ∧
      stats.total_detections = (acceptedClassIds o (images.filter o.validPath)).length ∧
      stats.annotation_files_created = fs1.annFiles.length := by
  obtain ⟨hf, hs, hr, hc⟩ := processImages_spec o (images.filter o.validPath)
  refine ⟨_, _,
    predict_image_run st o images conf fs q clsLines dict hinit hmodel hconf hmk hvalid hmap,
    rfl, ?_, ?_, ?_, rfl⟩
  · show (processImages o (images.filter o.validPath)).successful +
        (processImages o (images.filter o.validPath)).failed =
        (images.filter o.validPath).length
    rw [hs, hf]
    exact filter_length_partition _ _
  · show (processImages o (images.filter o.validPath)).counter.length = _
    rw [hc, foldBump_nil_length]
  · show counterTotal (processImages o (images.filter o.validPath)).counter = _
    rw [hc, foldBump_counterTotal]
    simp [counterTotal]

theorem c3_batch_statistics_witness :
    ∃ stats fs1,
      predict_image sampleState sampleOracle ["a.jpg", "b.jpg", "notes.txt"]
        (PyVal.bool true) FS.empty = (Except.ok stats, fs1) ∧
      stats.total_images =
        (["a.jpg", "b.jpg", "notes.txt"].filter sampleOracle.validPath).length ∧
      stats.successful_predictions + stats.failed_predictions = stats.total_images ∧
      stats.classes_detected =
        (acceptedClassIds sampleOracle
          (["a.jpg", "b.jpg", "notes.txt"].filter sampleOracle.validPath)).toFinset.card ∧
      stats.total_detections =
        (acceptedClassIds sampleOracle
          (["a.jpg", "b.jpg", "notes.txt"].filter sampleOracle.validPath)).length ∧
      stats.annotation_files_created = fs1.annFiles.length :=
  c3_batch_statistics sampleState sampleOracle ["a.jpg", "b.jpg", "notes.txt"]
    (PyVal.bool true) FS.empty 1 ["person", "car"] [("person", 0), ("car", 1)]
    rfl rfl (by norm_num [validate_confidence_of_some (PyVal.bool true) 1 rfl])
    rfl (by decide) rfl

/-- **C6**: in a batch where zero detections occurred across every image,
`classes.txt` enumerates the originally configured class names in their
original configuration order, and every per-image annotation file written
for a successfully predicted image is empty (and is written whenever the
per-file write succeeds). -/
theorem c6_zero_detections (st : YoloeState) (o : Oracle) (images : List String)
    (conf : PyVal) (fs : FS) (q : ℚ) (cfg : List String)
    (hinit : st.is_initialized = true) (hmodel : st.model.isSome = true)
    (hconf : validate_confidence conf = Except.ok q) (hmk : o.mkdirOk = true)
    (hvalid : images.filter o.validPath ≠ [])
    (hcfg : st.class_names = some cfg)
    (hzero : acceptedClassIds o (images.filter o.validPath) = []) :
    ∃ stats fs1, predict_image st o images conf fs = (Except.ok stats, fs1) ∧
      fs1.classesTxt = some cfg ∧
      (∀ pr ∈ fs1.annFiles, pr.2 = ([] : List String)) ∧
      (∀ p ∈ images.filter o.validPath, inferFails o p = false → o.writeOk p = true →
        (p, ([] : List String)) ∈ fs1.annFiles) := by
  obtain ⟨hf, hs, hr, hc⟩ := processImages_spec o (images.filter o.validPath)
  have hcnt : (processImages o (images.filter o.validPath)).counter = [] := by
    rw [hc, hzero]
    rfl
  have hmap : generateClassMapping st (processImages o (images.filter o.validPath)).counter
      = some (cfg, (emptyMapping cfg).2) := by
    rw [hcnt, generateClassMapping_empty, hcfg]
    rfl
  have hdets : ∀ r ∈ (processImages o (images.filter o.validPath)).allResults,
      r.2.2 = ([] : List Box) := by
    intro r hrm
    rw [hr] at hrm
    obtain ⟨p, hpmem, hpeq⟩ := List.mem_map.mp hrm
    have hpv : p ∈ images.filter o.validPath := (List.mem_filter.mp hpmem).1
    have hids := acceptedIdsOf_eq_nil_of_batch_nil o _ hzero p hpv
    rw [← hpeq]
    exact resultTriple_dets_nil o p hids
  refine ⟨_, _,
    predict_image_run st o images conf fs q cfg (emptyMapping cfg).2 hinit hmodel hconf
      hmk hvalid hmap, rfl, ?_, ?_⟩
  · intro pr hpr
    obtain ⟨hw, r, hrm, hfst, hlines⟩ := mem_writtenFiles st o _ _ pr hpr
    rw [hdets r hrm] at hlines
    have : some ([] : List String) = some pr.2 := by
      rw [← hlines]
      rfl
    injection this with h
    exact h.symm
  · intro p hp hfail hw
    have hmem : resultTriple o p ∈ (processImages o (images.filter o.validPath)).allResults := by
      rw [hr]
      exact List.mem_map_of_mem _ (List.mem_filter.mpr ⟨hp, by rw [hfail]; rfl⟩)
    have hlines : annotationLines st (resultTriple o p).2.1 (emptyMapping cfg).2
        (resultTriple o p).2.2 = some ([] : List String) := by
      rw [hdets _ hmem]
      rfl
    have hw2 : o.writeOk (resultTriple o p).1 = true := by
      rw [resultTriple_fst]
      exact hw
    have := writtenFiles_mem st o (emptyMapping cfg).2 _ (resultTriple o p) [] hmem hlines hw2
    rw [resultTriple_fst] at this
    exact this

theorem c6_zero_detections_witness :
    ∃ stats fs1,
      predict_image sampleState emptyOracle ["x.jpg", "y.jpg"] (PyVal.bool true) FS.empty =
        (Except.ok stats, fs1) ∧
      fs1.classesTxt = some ["person", "car"] ∧
      (∀ pr ∈ fs1.annFiles, pr.2 = ([] : List String)) ∧
      (∀ p ∈ ["x.jpg", "y.jpg"].filter emptyOracle.validPath,
        inferFails emptyOracle p = false → emptyOracle.writeOk p = true →
        (p, ([] : List String)) ∈ fs1.annFiles) :=
  c6_zero_detections sampleState emptyOracle ["x.jpg", "y.jpg"] (PyVal.bool true)
    FS.empty 1 ["person", "car"] rfl rfl
    (by norm_num [validate_confidence_of_some (PyVal.bool true) 1 rfl]) rfl
    (by decide) rfl rfl

/-- **C7**: a failure while writing one image's annotation file is caught
and skipped: `successful_predictions` still counts every successfully
predicted image (including the one whose write failed),
`annotation_files_created` counts exactly the files actually written, no
file event exists for the failed image, and every other retained image
whose write succeeds still gets its annotation file. -/
theorem c7_write_failure_isolated (st : YoloeState) (o : Oracle) (images : List String)
    (conf : PyVal) (fs : FS) (q : ℚ) (clsLines : List String) (dict : List (String × ℕ))
    (p : String)
    (hinit : st.is_initialized = true) (hmodel : st.model.isSome = true)
    (hconf : validate_confidence conf = Except.ok q) (hmk : o.mkdirOk = true)
    (hvalid : images.filter o.validPath ≠ [])
    (hmap : generateClassMapping st (processImages o (images.filter o.validPath)).counter
      = some (clsLines, dict))
    (hcn : st.class_names.isSome = true)
    (hp : p ∈ images.filter o.validPath)
    (hpok : inferFails o p = false)
    (hpw : o.writeOk p = false) :
    ∃ stats fs1, predict_image st o images conf fs = (Except.ok stats, fs1) ∧
      stats.successful_predictions =
        ((images.filter o.validPath).filter (fun x => ! inferFails o x)).length ∧
      stats.annotation_files_created = fs1.annFiles.length ∧
      (∀ L, (p, L) ∉ fs1.annFiles) ∧
      (∀ p2 ∈ images.filter o.validPath, inferFails o p2 = false → o.writeOk p2 = true →
        ∃ L, (p2, L) ∈ fs1.annFiles) := by
  obtain ⟨hf, hs, hr, hc⟩ := processImages_spec o (images.filter o.validPath)
  refine ⟨_, _,
    predict_image_run st o images conf fs q clsLines dict hinit hmodel hconf hmk hvalid hmap,
    hs, rfl, ?_, ?_⟩
  · intro L hL
    obtain ⟨hw, r, hrm, hfst, hlines⟩ := mem_writtenFiles st o _ _ (p, L) hL
    have hw2 : o.writeOk p = true := hw
    rw [hpw] at hw2
    cases hw2
  · intro p2 hp2 hfail hw
    have hmem : resultTriple o p2 ∈ (processImages o (images.filter o.validPath)).allResults := by
      rw [hr]
      exact List.mem_map_of_mem _ (List.mem_filter.mpr ⟨hp2, by rw [hfail]; rfl⟩)
    have hresOk : ∀ b ∈ (resultTriple o p2).2.2, ∀ c, b.cls = some c →
        (resolveWriteName st (resultTriple o p2).2.1 c).isSome :=
      fun b _ c _ => resolveWriteName_isSome st _ c hcn
    have hlines := annotationLines_spec st (resultTriple o p2).2.1 dict
      (resultTriple o p2).2.2 hresOk
    have hw2 : o.writeOk (resultTriple o p2).1 = true := by
      rw [resultTriple_fst]
      exact hw
    have hin := writtenFiles_mem st o dict _ (resultTriple o p2) _ hmem hlines hw2
    rw [resultTriple_fst] at hin
    exact ⟨_, hin⟩

theorem c7_write_failure_isolated_witness :
    ∃ stats fs1,
      predict_image sampleState writeFailOracle ["a.jpg", "b.jpg"] (PyVal.bool true)
        FS.empty = (Except.ok stats, fs1) ∧
      stats.successful_predictions =
        ((["a.jpg", "b.jpg"].filter writeFailOracle.validPath).filter
          (fun x => ! inferFails writeFailOracle x)).length ∧
      stats.annotation_files_created = fs1.annFiles.length ∧
      (∀ L, ("b.jpg", L) ∉ fs1.annFiles) ∧
      (∀ p2 ∈ ["a.jpg", "b.jpg"].filter writeFailOracle.validPath,
        inferFails writeFailOracle p2 = false → writeFailOracle.writeOk p2 = true →
        ∃ L, (p2, L) ∈ fs1.annFiles) :=
  c7_write_failure_isolated sampleState writeFailOracle ["a.jpg", "b.jpg"]
    (PyVal.bool true) FS.empty 1 ["person", "car"] [("person", 0), ("car", 1)] "b.jpg"
    rfl rfl (by norm_num [validate_confidence_of_some (PyVal.bool true) 1 rfl]) rfl
    (by decide) rfl rfl (by decide) rfl rfl

/-- **C4**: an image whose inference raises or yields no result object is
caught at the per-image boundary: inserting such an image into a batch
leaves every other statistic and every file effect unchanged — the batch
completes, `failed_predictions` grows by exactly one, `total_images` by
one, `successful_predictions` is unchanged, and the produced files
(`classes.txt` and all annotation files) are identical, so the failing
image is excluded from annotation writing and never aborts the batch. -/
theorem c4_inference_failure_isolated (st : YoloeState) (o : Oracle)
    (pre post : List String) (p : String) (conf : PyVal) (fs : FS) (q : ℚ)
    (clsLines : List String) (dict : List (String × ℕ))
    (hinit : st.is_initialized = true) (hmodel : st.model.isSome = true)
    (hconf : validate_confidence conf = Except.ok q) (hmk : o.mkdirOk = true)
    (hpv : o.validPath p = true)
    (hpf : inferFails o p = true)
    (hvalid : (pre ++ post).filter o.validPath ≠ [])
    (hmap : generateClassMapping st
      (processImages o ((pre ++ post).filter o.validPath)).counter = some (clsLines, dict)) :
    ∃ stats fs1 stats2 fs2,
      predict_image st o (pre ++ post) conf fs = (Except.ok stats, fs1) ∧
      predict_image st o (pre ++ p :: post) conf fs = (Except.ok stats2, fs2) ∧
      stats2.total_images = stats.total_images + 1 ∧
      stats2.failed_predictions = stats.failed_predictions + 1 ∧
      stats2.successful_predictions = stats.successful_predictions ∧
      fs2 = fs1 := by
  have hfeB : (pre ++ post).filter o.validPath =
      pre.filter o.validPath ++ post.filter o.validPath := by
    rw [List.filter_append]
  have hfeA : (pre ++ p :: post).filter o.validPath =
      pre.filter o.validPath ++ p :: post.filter o.validPath := by
    rw [List.filter_append, List.filter_cons, if_pos hpv]
  have hidsEq : acceptedClassIds o ((pre ++ p :: post).filter o.validPath) =
      acceptedClassIds o ((pre ++ post).filter o.validPath) := by
    rw [hfeA, hfeB, acceptedClassIds_append, acceptedClassIds_append,
      acceptedClassIds_cons, acceptedIdsOf_of_fails o p hpf]
    simp
  have hcntEq : (processImages o ((pre ++ p :: post).filter o.validPath)).counter =
      (processImages o ((pre ++ post).filter o.validPath)).counter := by
    rw [(processImages_spec o _).2.2.2, (processImages_spec o _).2.2.2, hidsEq]
  have hmapA : generateClassMapping st
      (processImages o ((pre ++ p :: post).filter o.validPath)).counter =
      some (clsLines, dict) := by
    rw [hcntEq]
    exact hmap
  have hvalidA : (pre ++ p :: post).filter o.validPath ≠ [] := by
    rw [hfeA]
    simp
  have hfiltEq : (pre.filter o.validPath ++ p :: post.filter o.validPath).filter
        (fun x => ! inferFails o x) =
      (pre.filter o.validPath ++ post.filter o.validPath).filter
        (fun x => ! inferFails o x) := by
    rw [List.filter_append, List.filter_append, List.filter_cons]
    simp [hpf]
  have hresEq : (processImages o ((pre ++ p :: post).filter o.validPath)).allResults =
      (processImages o ((pre ++ post).filter o.validPath)).allResults := by
    rw [(processImages_spec o _).2.2.1, (processImages_spec o _).2.2.1, hfeA, hfeB, hfiltEq]
  refine ⟨_, _, _, _,
    predict_image_run st o (pre ++ post) conf fs q clsLines dict hinit hmodel hconf hmk
      hvalid hmap,
    predict_image_run st o (pre ++ p :: post) conf fs q clsLines dict hinit hmodel hconf hmk
      hvalidA hmapA, ?_, ?_, ?_, ?_⟩
  · show ((pre ++ p :: post).filter o.validPath).length =
        ((pre ++ post).filter o.validPath).length + 1
    rw [hfeA, hfeB]
    simp [List.length_append]
    omega
  · show (processImages o ((pre ++ p :: post).filter o.validPath)).failed =
        (processImages o ((pre ++ post).filter o.validPath)).failed + 1
    rw [(processImages_spec o _).1, (processImages_spec o _).1, hfeA, hfeB,
      List.filter_append, List.filter_append, List.filter_cons]
    simp [hpf]
    omega
  · show (processImages o ((pre ++ p :: post).filter o.validPath)).successful =
        (processImages o ((pre ++ post).filter o.validPath)).successful
    rw [(processImages_spec o _).2.1, (processImages_spec o _).2.1, hfeA, hfeB, hfiltEq]
  · rw [hresEq]

theorem c4_inference_failure_isolated_witness :
    ∃ stats fs1 stats2 fs2,
      predict_image sampleState sampleOracle (["a.jpg"] ++ ["b.jpg"]) (PyVal.bool true)
        FS.empty = (Except.ok stats, fs1) ∧
      predict_image sampleState sampleOracle (["a.jpg"] ++ "bad.jpg" :: ["b.jpg"])
        (PyVal.bool true) FS.empty = (Except.ok stats2, fs2) ∧
      stats2.total_images = stats.total_images + 1 ∧
      stats2.failed_predictions = stats.failed_predictions + 1 ∧
      stats2.successful_predictions = stats.successful_predictions ∧
      fs2 = fs1 :=
  c4_inference_failure_isolated sampleState sampleOracle ["a.jpg"] ["b.jpg"] "bad.jpg"
    (PyVal.bool true) FS.empty 1 ["person", "car"] [("person", 0), ("car", 1)]
    rfl rfl (by norm_num [validate_confidence_of_some (PyVal.bool true) 1 rfl]) rfl
    (by decide) (by decide) (by decide) rfl
